import Mathlib

/-!
Verification development for the video concatenation / UGC processing pipeline
(`processor.py`, `ugc_processor.py`).

The Python source is shallowly embedded: pure helpers become Lean functions on
`Int` / `Nat` / `ℚ` / `String` / `List Char`; each external `ffmpeg` invocation
is abstracted by a record describing the observable behaviour of that one
process run (number of 1-second timeout polls before completion, exit code,
stderr, and whether/how large an output file the run leaves on disk); the
cancellation flag is a Boolean stream indexed by a global poll counter.
Python `float` values are binary64 and are modelled bit-exactly as dyadic
rationals with explicit round-to-nearest-even at every arithmetic operation
(see the UGC composer section); `int(x)` of a non-negative value truncates.
-/

namespace VideoPipeline

/-! ### Duration probing tolerance (`processor.py`, `_duration_within_tolerance`) -/

/-- `_duration_within_tolerance(actual_ms, expected_ms)`: vacuously true when either
duration is unknown (`<= 0`); otherwise the absolute difference must be at most
`max(2000, int(expected_ms * 0.05))`.  `int(expected_ms * 0.05)` is modelled as
`expected_ms * 5 / 100` (exact for the rational semantics of the float product,
truncated toward zero; both agree with floor since `expected_ms > 0` there). -/
def duration_within_tolerance (actual_ms expected_ms : Int) : Bool :=
  if actual_ms ≤ 0 ∨ expected_ms ≤ 0 then true
  else
    let tolerance_ms : Int := max 2000 (expected_ms * 5 / 100)
    |actual_ms - expected_ms| ≤ tolerance_ms

/-! ### Fast-copy concatenation (`processor.py`, `try_fast_copy_concat`)

The subprocess run and the three `ffprobe` duration probes are abstracted into
an environment record; the function models the success/cleanup logic that the
source performs on that data. -/

/-- Observable behaviour of the fast-copy `ffmpeg` run and the subsequent probes:
exit code, whether an output file was left on disk and its size, the probed
durations of the two inputs and of the output (`0` when a probe fails). -/
structure FastCopyEnv where
  returncode : Int
  outputCreated : Bool
  outputSize : Nat
  dur1 : Int
  dur2 : Int
  out_dur : Int
deriving DecidableEq

/-- What `try_fast_copy_concat` leaves behind: its boolean return value and
whether the output file still exists on disk afterwards. -/
structure FastCopyOutcome where
  success : Bool
  outputExists : Bool
deriving DecidableEq

/-- `try_fast_copy_concat`: succeeds when the process exited 0 and left a
non-empty output whose duration is within tolerance of the summed input
durations; a tolerance violation deletes the output and reports failure, as
does any failed run (whose partial output is also cleaned up). -/
def try_fast_copy_concat (env : FastCopyEnv) : FastCopyOutcome :=
  if env.returncode = 0 ∧ env.outputCreated = true ∧ 0 < env.outputSize then
    let expected := env.dur1 + env.dur2
    if ¬ duration_within_tolerance env.out_dur expected then
      { success := false, outputExists := false }
    else
      { success := true, outputExists := true }
  else
    { success := false, outputExists := false }

/-! ### Process runner (`processor.py`, `_run_ffmpeg_command` / `_run_ffmpeg_concat`)

One external `ffmpeg` invocation is abstracted by the record below.  The
source's poll loop calls `process.communicate(timeout=1)`; `timeoutPolls` is
the number of calls that raise `TimeoutExpired` before the process completes,
and the cancellation callback is consulted once after each such timeout.  The
cancellation flag is a stream `Nat → Bool` indexed by a global poll counter
(clock) threaded through consecutive invocations. -/

/-- Observable behaviour of a single external process run. -/
structure FFmpegRun where
  timeoutPolls : Nat
  returncode : Int
  stderr : String
  outputCreated : Bool
  outputSize : Nat
deriving DecidableEq

/-- The poll loop of the runner: starting at global poll index `clock`, with
`polls` timeouts remaining before the process completes, return the index of
the first poll at which the cancellation flag is observed set, or `none` if
the process completes uncancelled. -/
def firstCancelPoll (cancel : Nat → Bool) : Nat → Nat → Option Nat
  | _clock, 0 => none
  | clock, polls + 1 =>
    if cancel clock then some clock else firstCancelPoll cancel (clock + 1) polls

/-- What a runner invocation leaves behind: its returned `(success, error)`
pair and whether the output file still exists on disk afterwards. -/
structure RunOutcome where
  success : Bool
  error : String
  outputExists : Bool
deriving DecidableEq

/-- Python's `s[-n:]`: the last `n` characters of `s` (all of `s` when shorter). -/
def lastChars (n : Nat) (s : String) : String :=
  String.mk (s.data.drop (s.data.length - n))

/-- `_run_ffmpeg_command(cmd, output, cancel_check)`: poll for completion; on a
cancellation observation terminate (escalating to kill), delete any partial
output and return `(False, "Cancelled by user")`; on completion succeed iff
the exit code is zero and the output file exists and is non-empty, otherwise
delete any partial output and surface the last 500 characters of stderr
(`"Unknown error"` when stderr is empty).  Returns the outcome and the
advanced poll clock. -/
def run_ffmpeg_command (run : FFmpegRun) (cancel : Nat → Bool) (clock : Nat) :
    RunOutcome × Nat :=
  match firstCancelPoll cancel clock run.timeoutPolls with
  | some c =>
    ({ success := false, error := "Cancelled by user", outputExists := false }, c + 1)
  | none =>
    let clock1 := clock + run.timeoutPolls
    if run.returncode = 0 ∧ run.outputCreated = true ∧ 0 < run.outputSize then
      ({ success := true, error := "", outputExists := true }, clock1)
    else
      ({ success := false,
         error := if run.stderr ≠ "" then lastChars 500 run.stderr else "Unknown error",
         outputExists := false }, clock1)

/-- `_run_ffmpeg_concat(file1, file2, output, filter_complex, ...)`: its process
management body is identical to `_run_ffmpeg_command`'s (the two functions are
verbatim duplicates in the source apart from command construction). -/
def run_ffmpeg_concat (run : FFmpegRun) (cancel : Nat → Bool) (clock : Nat) :
    RunOutcome × Nat :=
  match firstCancelPoll cancel clock run.timeoutPolls with
  | some c =>
    ({ success := false, error := "Cancelled by user", outputExists := false }, c + 1)
  | none =>
    let clock1 := clock + run.timeoutPolls
    if run.returncode = 0 ∧ run.outputCreated = true ∧ 0 < run.outputSize then
      ({ success := true, error := "", outputExists := true }, clock1)
    else
      ({ success := false,
         error := if run.stderr ≠ "" then lastChars 500 run.stderr else "Unknown error",
         outputExists := false }, clock1)

/-! ### Re-encode fallback tiers (`processor.py`, `reencode_concat` /
`simple_video_concat`) -/

/-- Result of `reencode_concat`, additionally recording whether the
video-only fallback tier was launched. -/
structure ReencodeResult where
  success : Bool
  error : String
  outputExists : Bool
  videoOnlyAttempted : Bool
deriving DecidableEq

/-- `reencode_concat(file1, file2, output, ...)`: run the re-encode-with-audio
tier; on success return `(True, "")`; on ANY failure (the source does not
distinguish a cancellation result) launch the video-only tier and return its
outcome.  `audioRun` and `videoOnly` describe the two potential process runs. -/
def reencode_concat (audioRun videoOnly : FFmpegRun) (cancel : Nat → Bool)
    (clock : Nat) : ReencodeResult × Nat :=
  let r1 := run_ffmpeg_concat audioRun cancel clock
  if r1.1.success then
    ({ success := true, error := "", outputExists := r1.1.outputExists,
       videoOnlyAttempted := false }, r1.2)
  else
    let r2 := run_ffmpeg_concat videoOnly cancel r1.2
    ({ success := r2.1.success, error := r2.1.error, outputExists := r2.1.outputExists,
       videoOnlyAttempted := true }, r2.2)

/-- `simple_video_concat(file1, file2, output, ...)`: same two-tier shape as
`reencode_concat` (fixed 1920x1080 filter graphs), returning `(True, "")` on a
first-tier success and the second tier's outcome otherwise. -/
def simple_video_concat (audioRun videoOnly : FFmpegRun) (cancel : Nat → Bool)
    (clock : Nat) : RunOutcome × Nat :=
  let r1 := run_ffmpeg_concat audioRun cancel clock
  if r1.1.success then
    ({ success := true, error := "", outputExists := r1.1.outputExists }, r1.2)
  else
    run_ffmpeg_concat videoOnly cancel r1.2

/-! ### UGC end-segment append (`ugc_processor.py`, `concatenate_with_end_sting`) -/

/-- Observable behaviour of the end-sting append's two potential process runs:
the polled audio attempt, and the blocking (`subprocess.run`) video-only
fallback. -/
structure EndStingEnv where
  mainRun : FFmpegRun
  fallbackReturncode : Int
  fallbackOutputCreated : Bool
  fallbackOutputSize : Nat
deriving DecidableEq

/-- `concatenate_with_end_sting(main_video, end_sting, output_path, ...)`:
poll the audio attempt (cancellation deletes the output and returns `False`);
on completion succeed when the exit code is zero AND the output file exists
(the source checks no size and surfaces no stderr here); otherwise run the
video-only fallback via `subprocess.run` (no cancellation polling, no cleanup
of a failed output) and succeed under the same exit-code/existence test.
Returns `(returned success, output file exists afterwards)`. -/
def concatenate_with_end_sting (env : EndStingEnv) (cancel : Nat → Bool)
    (clock : Nat) : Bool × Bool :=
  match firstCancelPoll cancel clock env.mainRun.timeoutPolls with
  | some _ => (false, false)
  | none =>
    if env.mainRun.returncode = 0 ∧ env.mainRun.outputCreated = true then
      (true, true)
    else
      (decide (env.fallbackReturncode = 0 ∧ env.fallbackOutputCreated = true),
       env.fallbackOutputCreated)

/-! ### Data model (`processor.py`: `TextOverlayConfig`, `VideoMatch`,
`ProcessingResult`) -/

/-- Python `str.strip()` on the character list of a string: drop leading and
trailing whitespace. -/
def pyStrip (l : List Char) : List Char :=
  ((l.dropWhile Char.isWhitespace).reverse.dropWhile Char.isWhitespace).reverse

/-- `TextOverlayConfig` dataclass.  Numeric fields keep Python's types
(`float` as `ℚ`); only `text` matters for enablement. -/
structure TextOverlayConfig where
  text : String
  x : Int := 0
  y : Int := 0
  duration : ℚ := 0
  font_size : Int := 0
  font_color : String := "white"
  font_family : Option String := none
  font_style : String := "Normal"
  align : String := "top_center"
  max_width_ratio : ℚ := 85 / 100
  stroke_width : Int := 4
  stroke_color : String := "black"
  line_spacing : Int := 6
  box_width : Int := 0
  box_height : Int := 0

/-- `is_enabled(self)`: `bool(self.text and self.text.strip())`. -/
def TextOverlayConfig.is_enabled (c : TextOverlayConfig) : Bool :=
  decide (c.text ≠ "") && decide (pyStrip c.text.data ≠ [])

/-- `VideoMatch` dataclass: a basename with the optional paths found on each
side (paths are modelled as strings). -/
structure VideoMatch where
  basename : String
  file_a : Option String
  file_b : Option String
deriving DecidableEq

/-- `is_matched`: both files present. -/
def VideoMatch.is_matched (m : VideoMatch) : Bool :=
  m.file_a.isSome && m.file_b.isSome

/-- `status`: `"Matched"` when both present, else `"Only in B"` when `file_a`
is absent, else `"Only in A"`. -/
def VideoMatch.status (m : VideoMatch) : String :=
  if m.is_matched then "Matched"
  else if m.file_a = none then "Only in B"
  else "Only in A"

/-- `ProcessingResult` dataclass. -/
structure ProcessingResult where
  basename : String
  success : Bool
  used_fast_copy : Bool
  error_message : Option String := none
deriving DecidableEq

/-! ### Pair processing (`processor.py`, `process_video_pair`)

The external effects of one pair job are collected in `PairEnv`: the outcome
of applying each overlay (a nested `ffmpeg`/Pillow pipeline of its own), the
data of the fast-copy attempt, and the process runs of the four re-encode
tier invocations, sharing one cancellation stream. -/

/-- `overlay.is_enabled() if overlay else False`. -/
def overlayEnabled : Option TextOverlayConfig → Bool
  | some c => c.is_enabled
  | none => false

/-- Environment for one `process_video_pair` job. -/
structure PairEnv where
  overlayASucceeds : Bool
  overlayAError : String
  overlayBSucceeds : Bool
  overlayBError : String
  fastCopy : FastCopyEnv
  reencodeAudioRun : FFmpegRun
  reencodeVideoOnly : FFmpegRun
  simpleAudioRun : FFmpegRun
  simpleVideoOnly : FFmpegRun
  cancel : Nat → Bool

/-- `process_video_pair(match, ..., try_fast_copy, overlay_a, overlay_b, ...)`:
reject unmatched pairs; apply enabled overlays first (failure aborts the job);
any enabled overlay forces `try_fast_copy` off; then try fast copy, falling
back to `reencode_concat` and finally `simple_video_concat`. -/
def process_video_pair (m : VideoMatch) (try_fast_copy : Bool)
    (overlay_a overlay_b : Option TextOverlayConfig) (env : PairEnv) :
    ProcessingResult :=
  if m.is_matched = false then
    { basename := m.basename, success := false, used_fast_copy := false,
      error_message := some "Not a matched pair" }
  else
    let overlay_a_enabled := overlayEnabled overlay_a
    let overlay_b_enabled := overlayEnabled overlay_b
    let overlay_active := overlay_a_enabled || overlay_b_enabled
    if overlay_a_enabled = true ∧ env.overlayASucceeds = false then
      { basename := m.basename, success := false, used_fast_copy := false,
        error_message := some env.overlayAError }
    else if overlay_b_enabled = true ∧ env.overlayBSucceeds = false then
      { basename := m.basename, success := false, used_fast_copy := false,
        error_message := some env.overlayBError }
    else
      let try_fast_copy :=
        if overlay_active = true ∧ try_fast_copy = true then false else try_fast_copy
      if try_fast_copy = true ∧ (try_fast_copy_concat env.fastCopy).success = true then
        { basename := m.basename, success := true, used_fast_copy := true,
          error_message := none }
      else
        let r := reencode_concat env.reencodeAudioRun env.reencodeVideoOnly env.cancel 0
        if r.1.success then
          { basename := m.basename, success := true, used_fast_copy := false,
            error_message := some r.1.error }
        else
          let s := simple_video_concat env.simpleAudioRun env.simpleVideoOnly env.cancel r.2
          { basename := m.basename, success := s.1.success, used_fast_copy := false,
            error_message := some s.1.error }

/-! ### Overlay word wrapping (`processor.py`, `_wrap_text`)

Strings are modelled as `List Char` here; the Pillow measurement
`_measure_text(draw, s, font)[0]` is abstracted as a function
`measure : List Char → Nat`. -/

/-- Helper for `pySplit`: whitespace-separated tokens of the remaining input,
with `acc` the (reversed) token currently being read. -/
def pySplitAux : List Char → List Char → List (List Char)
  | [], acc => if acc = [] then [] else [acc.reverse]
  | c :: rest, acc =>
    if c.isWhitespace then
      if acc = [] then pySplitAux rest [] else acc.reverse :: pySplitAux rest []
    else pySplitAux rest (c :: acc)

/-- Python `str.split()` (no separator): maximal non-whitespace runs. -/
def pySplit (l : List Char) : List (List Char) := pySplitAux l []

/-- The character loop of `_wrap_text` that hard-splits a single word wider
than `max_width`: returns the fully emitted chunks and the trailing chunk. -/
def splitWordChars (measure : List Char → Nat) (max_width : Nat)
    (word : List Char) : List (List Char) × List Char :=
  word.foldl
    (fun p ch =>
      let test_chunk := p.2 ++ [ch]
      if measure test_chunk ≤ max_width ∨ p.2 = [] then (p.1, test_chunk)
      else (p.1 ++ [p.2], [ch]))
    ([], [])

/-- One iteration of `_wrap_text`'s word loop: try to extend the current line
with `word`; on overflow emit the current line, start a new one with `word`,
and hard-split it by character if `word` alone is too wide. -/
def wrapStep (measure : List Char → Nat) (max_width : Nat)
    (st : List (List Char) × List Char) (word : List Char) :
    List (List Char) × List Char :=
  let test := pyStrip (st.2 ++ ' ' :: word)
  if measure test ≤ max_width ∨ st.2 = [] then (st.1, test)
  else
    let lines := st.1 ++ [st.2]
    if max_width < measure word then
      let split := splitWordChars measure max_width word
      (lines ++ split.1, if split.2 = [] then word else split.2)
    else (lines, word)

/-- `_wrap_text(draw, text, font, max_width)`: greedy word wrap; an empty word
list returns `[text]`; the trailing current line is emitted when non-empty. -/
def wrap_text (measure : List Char → Nat) (text : List Char) (max_width : Nat) :
    List (List Char) :=
  let words := pySplit text
  if words = [] then [text]
  else
    let st := words.foldl (wrapStep measure max_width) ([], [])
    if st.2 = [] then st.1 else st.1 ++ [st.2]

/-! ### Matcher (`processor.py`, `natural_sort_key` / `find_matches`)

Directory scans are filesystem effects; a scanned folder is modelled by its
result, the stem-to-path mapping `scan_video_files` produces, as an
association list (first binding wins, as in the Python dict built with
first-occurrence-wins).  `re.split(r'(\d+)', s)` alternates (possibly empty)
non-digit runs with maximal digit runs; a key element is a `Nat` for a digit
run and a lowercased `List Char` for a non-digit run.  Elements at equal
positions of two keys always have the same shape (keys alternate strictly,
starting with a non-digit run), so the `Sum.Lex` order used below coincides
with Python's tuple-list comparison wherever the latter is defined. -/

/-- Helper for `reSplitDigits`: `inDigits` tells whether the run in `acc`
(reversed) is a digit run; a trailing empty non-digit run is emitted when the
input ends inside a digit run, as `re.split` with a capture group does. -/
def reSplitAux (inDigits : Bool) (acc : List Char) : List Char → List (List Char)
  | [] => if inDigits then [acc.reverse, []] else [acc.reverse]
  | c :: rest =>
    if c.isDigit = inDigits then reSplitAux inDigits (c :: acc) rest
    else acc.reverse :: reSplitAux (!inDigits) [c] rest

/-- `re.split(r'(\d+)', s)`: alternating non-digit / digit runs, beginning and
ending with a (possibly empty) non-digit run. -/
def reSplitDigits (l : List Char) : List (List Char) := reSplitAux false [] l

/-- Python `int(text)` for a decimal digit string. -/
def digitsToNat (t : List Char) : Nat :=
  t.foldl (fun acc c => acc * 10 + (c.toNat - '0'.toNat)) 0

/-- `natural_sort_key(s)`: `[int(text) if text.isdigit() else text.lower()
for text in re.split(r'(\d+)', s)]`. -/
def natural_sort_key (s : String) : List (Nat ⊕ₗ List Char) :=
  (reSplitDigits s.data).map fun t =>
    if t ≠ [] ∧ t.all Char.isDigit = true then toLex (Sum.inl (digitsToNat t))
    else toLex (Sum.inr (t.map Char.toLower))

/-- The comparison `find_matches` sorts by: `natural_sort_key` of the
basenames, ordered lexicographically. -/
def natKeyLE (m₁ m₂ : VideoMatch) : Prop :=
  natural_sort_key m₁.basename ≤ natural_sort_key m₂.basename

instance : DecidableRel natKeyLE := fun m₁ m₂ =>
  inferInstanceAs (Decidable (natural_sort_key m₁.basename ≤ natural_sort_key m₂.basename))

/-- `find_matches(folder_a, folder_b)` on the scan results: one `VideoMatch`
per basename in the union of the two key sets, sorted by `natural_sort_key`
of the basename (a stable sort, as Python's `list.sort`). -/
def find_matches (videos_a videos_b : List (String × String)) : List VideoMatch :=
  let all_basenames := ((videos_a.map Prod.fst) ++ (videos_b.map Prod.fst)).dedup
  let matchList : List VideoMatch := all_basenames.map fun b =>
    { basename := b, file_a := videos_a.lookup b, file_b := videos_b.lookup b }
  List.insertionSort natKeyLE matchList

/-! ### UGC composer (`ugc_processor.py`)

`process_ugc_video` computes the trim point in float seconds and filters the
transcript against `int(trimmed_duration_sec * 1000)`;
`ms_to_ass_time` likewise computes its fields in floating point.  Python
floats are binary64 and are modelled bit-exactly below: a finite double is
the dyadic rational `m * 2^e`, and every arithmetic operation produces the
exact rational result rounded to 53 significant bits, to nearest, ties to
even (subnormals and overflow never arise at the magnitudes involved).
Python `int / int` true division is a single correctly rounded operation;
float `-` and `*` round their exact result; float `%` with the positive
operands used here is exact (IEEE `fmod`); float `//` by an integer yields
the exact floor at these magnitudes; `int(x)` truncates (= floor, `x ≥ 0`). -/

/-- `TranscriptWord` dataclass. -/
structure TranscriptWord where
  text : String
  start_ms : Int
  end_ms : Int
deriving DecidableEq

/-- Fuel-driven `⌊log₂ n⌋`; any fuel ≥ `⌊log₂ n⌋` gives the exact value, and
the fixed fuel of `natLog2` is exact for every `n < 2^2000`, far beyond all
numbers in this development. -/
def log2Aux : Nat → Nat → Nat
  | 0, _ => 0
  | fuel + 1, n => if n < 2 then 0 else log2Aux fuel (n / 2) + 1

/-- `⌊log₂ n⌋` for `1 ≤ n < 2^2000`. -/
def natLog2 (n : Nat) : Nat := log2Aux 2000 n

/-- Round `N / D` (with `D > 0`) to the nearest integer, ties to even. -/
def roundNearestEven (N D : Nat) : Nat :=
  let q := N / D
  let r := N % D
  if 2 * r < D then q
  else if D < 2 * r then q + 1
  else if q % 2 = 0 then q else q + 1

/-- A finite binary64 value, represented exactly as the dyadic rational
`m * 2^e`. -/
structure F64 where
  m : Int
  e : Int
deriving DecidableEq

/-- Round the exact dyadic `m * 2^e` to 53 significant bits, nearest, ties
to even. -/
def roundDyadic (m : Int) (e : Int) : F64 :=
  if m = 0 then ⟨0, 0⟩
  else
    let n := m.natAbs
    let b := natLog2 n
    if b ≤ 52 then ⟨m, e⟩
    else
      let s := b - 52
      let n1 := roundNearestEven n (2 ^ s)
      ⟨if m < 0 then -(n1 : Int) else (n1 : Int), e + s⟩

/-- Round the positive rational `n / q` to binary64: scale into
`[2^52, 2^53)` using the exact floor of `log₂ (n / q)` and round the scaled
mantissa to the nearest integer, ties to even. -/
def roundRatPos (n q : Nat) : F64 :=
  let L : Int := (natLog2 (n * 2 ^ 200 / q) : Int) - 200
  let shift : Int := 52 - L
  let N := if 0 ≤ shift then n * 2 ^ shift.toNat else n
  let D := if 0 ≤ shift then q else q * 2 ^ (-shift).toNat
  ⟨(roundNearestEven N D : Int), L - 52⟩

/-- The binary64 value nearest `a / b` (used with `a ≥ 0 < b`, the only case
the source produces): Python `int / int` true division, and float literals
(`2.8` denotes `roundRat 28 10`). -/
def roundRat (a b : Int) : F64 :=
  if a = 0 then ⟨0, 0⟩ else roundRatPos a.natAbs b.natAbs

/-- Binary64 `x - y`: the exact dyadic difference, rounded. -/
def F64.sub (x y : F64) : F64 :=
  let e := min x.e y.e
  roundDyadic (x.m * 2 ^ (x.e - e).toNat - y.m * 2 ^ (y.e - e).toNat) e

/-- Binary64 `x * k` for an integer constant `k`: exact product, rounded. -/
def F64.mulInt (x : F64) (k : Int) : F64 := roundDyadic (x.m * k) x.e

/-- Python float `x % k` for `x ≥ 0` and an integer modulus `k > 0`: exact
(IEEE `fmod` introduces no rounding). -/
def F64.modNat (x : F64) (k : Nat) : F64 :=
  if 0 ≤ x.e then ⟨x.m * 2 ^ x.e.toNat % (k : Int), 0⟩
  else ⟨x.m % ((k : Int) * 2 ^ (-x.e).toNat), x.e⟩

/-- Python `int(x // k)` for `x ≥ 0`: the exact floor of `x / k` (Python's
float floor-division yields it exactly at the magnitudes arising here). -/
def F64.floorDivNat (x : F64) (k : Nat) : Int :=
  if 0 ≤ x.e then x.m * 2 ^ x.e.toNat / (k : Int)
  else x.m / ((k : Int) * 2 ^ (-x.e).toNat)

/-- Python `int(x)` for `x ≥ 0` (truncation = floor). -/
def F64.toIntTrunc (x : F64) : Int := x.floorDivNat 1

/-- The binary64 value of the source literal `trim_amount_sec = 2.8`. -/
def trim_amount_sec : F64 := roundRat 28 10

/-- `trimmed_duration_sec = max(0, video_duration_ms / 1000 - 2.8)` in
binary64: correctly rounded `int / int` division, rounded subtraction, and
an exact `max` against zero. -/
def trimmed_duration_sec (video_duration_ms : Int) : F64 :=
  let video_duration_sec := roundRat video_duration_ms 1000
  let diff := video_duration_sec.sub trim_amount_sec
  if diff.m < 0 then ⟨0, 0⟩ else diff

/-- `trimmed_duration_ms = int(trimmed_duration_sec * 1000)`: rounded
multiplication, then truncation. -/
def trimmed_duration_ms (video_duration_ms : Int) : Int :=
  ((trimmed_duration_sec video_duration_ms).mulInt 1000).toIntTrunc

/-- `words = [w for w in words if w.start_ms < trimmed_duration_ms]`. -/
def filter_words_for_captions (words : List TranscriptWord) (trimmedMs : Int) :
    List TranscriptWord :=
  words.filter fun w => w.start_ms < trimmedMs

/-- The four numeric fields of the `H:MM:SS.cc` ASS timestamp. -/
structure AssTime where
  hours : Int
  minutes : Int
  seconds : Int
  centiseconds : Int
deriving DecidableEq

/-- The arithmetic of `ms_to_ass_time(ms)` in binary64:
`total_seconds = ms / 1000` (one rounding);
`hours = int(total_seconds // 3600)` and
`minutes = int((total_seconds % 3600) // 60)` (float `%` is exact, `//` is
the exact floor here); `seconds = total_seconds % 60` (exact);
`centiseconds = int((seconds % 1) * 100)` (exact `%`, rounded `*`);
`seconds = int(seconds)`. -/
def ms_to_ass_time_parts (ms : Int) : AssTime :=
  let total_seconds := roundRat ms 1000
  let hours := total_seconds.floorDivNat 3600
  let minutes := (total_seconds.modNat 3600).floorDivNat 60
  let seconds_q := total_seconds.modNat 60
  let centiseconds := ((seconds_q.modNat 1).mulInt 100).toIntTrunc
  let seconds := seconds_q.toIntTrunc
  { hours := hours, minutes := minutes, seconds := seconds,
    centiseconds := centiseconds }

/-- Python `"{:02d}".format(n)` for the non-negative field values used here. -/
def pad2 (n : Int) : String :=
  if n < 10 then "0" ++ toString n else toString n

/-- `ms_to_ass_time(ms)`: the rendered `H:MM:SS.cc` string. -/
def ms_to_ass_time (ms : Int) : String :=
  let t := ms_to_ass_time_parts ms
  toString t.hours ++ ":" ++ pad2 t.minutes ++ ":" ++ pad2 t.seconds ++ "." ++
    pad2 t.centiseconds

/-- Modelled from the spec: the repository contains no parser for the subtitle
time format (the claim's "parsing that string back to milliseconds"), so the
inverse reading of an `H:MM:SS.cc` timestamp is taken from the spec's
description "Time values are rendered as `H:MM:SS.cc`": hours, minutes,
seconds and centiseconds contribute their usual weights in milliseconds. -/
def ass_time_to_ms (t : AssTime) : Int :=
  (t.hours * 3600 + t.minutes * 60 + t.seconds) * 1000 + t.centiseconds * 10

end VideoPipeline

namespace VideoPipeline

/-! ## Theorems -/

/-! ### Helper lemmas -/

theorem lastChars_length_le (n : Nat) (s : String) :
    (lastChars n s).data.length ≤ n := by
  show (s.data.drop (s.data.length - n)).length ≤ n
  rw [List.length_drop]
  omega

theorem lastChars_suffix (n : Nat) (s : String) :
    List.IsSuffix (lastChars n s).data s.data := by
  show List.IsSuffix (s.data.drop (s.data.length - n)) s.data
  exact List.drop_suffix _ _

/-! ### C2: fast-copy duration validation -/

/-- C2, counterexample: a fast-copy output whose duration (1000 ms) is 50% of
the expected sum (1000 + 1000 = 2000 ms) is ACCEPTED and left on disk, because
the 1000 ms mismatch is within the 2000 ms tolerance floor — refuting the
claim that a 50%-duration output is rejected and deleted for every input pair. -/
theorem fast_copy_half_duration_counterexample :
    try_fast_copy_concat ⟨0, true, 1, 1000, 1000, 1000⟩ =
      { success := true, outputExists := true } ∧
    2 * (1000 : Int) = 1000 + 1000 := by decide

/-- C2 (amended): for a fast-copy attempt whose process exited 0 with a
non-empty output, the output is accepted iff its probed duration is within
`max(2000 ms, 5% of expected)` of the expected sum OR one of those probed
values is `≤ 0` (unknown); on rejection the file is deleted and failure is
reported; in particular an output whose duration is 50% of the expected sum
is rejected and deleted whenever the expected sum exceeds 4000 ms. -/
theorem fast_copy_duration_validation (env : FastCopyEnv)
    (h0 : env.returncode = 0) (h1 : env.outputCreated = true)
    (h2 : 0 < env.outputSize) :
    ((try_fast_copy_concat env).success = true ↔
      (env.out_dur ≤ 0 ∨ env.dur1 + env.dur2 ≤ 0 ∨
        |env.out_dur - (env.dur1 + env.dur2)| ≤
          max 2000 ((env.dur1 + env.dur2) * 5 / 100))) ∧
    ((try_fast_copy_concat env).success = false →
      (try_fast_copy_concat env).outputExists = false) ∧
    (0 < env.out_dur → 4000 < env.dur1 + env.dur2 →
      2 * env.out_dur = env.dur1 + env.dur2 →
      (try_fast_copy_concat env).success = false ∧
      (try_fast_copy_concat env).outputExists = false) := by
  have hoe : (try_fast_copy_concat env).outputExists =
      (try_fast_copy_concat env).success := by
    simp only [try_fast_copy_concat]
    split_ifs
    all_goals rfl
  have hsucc : (try_fast_copy_concat env).success = true ↔
      (env.out_dur ≤ 0 ∨ env.dur1 + env.dur2 ≤ 0 ∨
        |env.out_dur - (env.dur1 + env.dur2)| ≤
          max 2000 ((env.dur1 + env.dur2) * 5 / 100)) := by
    simp only [try_fast_copy_concat, duration_within_tolerance]
    rw [if_pos ⟨h0, h1, h2⟩]
    split_ifs with ha hb <;> simp_all <;> tauto
  refine ⟨hsucc, fun hf => by rw [hoe, hf], fun ho he hhalf => ?_⟩
  have hfail : (try_fast_copy_concat env).success = false := by
    rw [Bool.eq_false_iff]
    intro hs
    rcases hsucc.mp hs with h | h | h
    · omega
    · omega
    · rcases max_cases (2000 : Int) ((env.dur1 + env.dur2) * 5 / 100) with
        ⟨hm, _⟩ | ⟨hm, _⟩ <;> rw [hm, abs_le] at h <;> omega
  exact ⟨hfail, by rw [hoe, hfail]⟩

/-- C2 witness: the amended validation at a concrete rejected input
(inputs 3000 + 3000 ms, output 3000 ms = 50% of 6000 ms > 4000 ms). -/
theorem fast_copy_duration_validation_witness :
    (try_fast_copy_concat ⟨0, true, 1, 3000, 3000, 3000⟩).success = false ∧
    (try_fast_copy_concat ⟨0, true, 1, 3000, 3000, 3000⟩).outputExists = false :=
  (fast_copy_duration_validation ⟨0, true, 1, 3000, 3000, 3000⟩ rfl rfl
    (by decide)).2.2 (by decide) (by decide) (by decide)

/-! ### C10: unknown probes disable validation -/

/-- C10, counterexample: with the FIRST input's duration probe failed
(`dur1 = 0`) but the second probed at 5000 ms, an output probed at 50000 ms is
REJECTED (50000 vs expected 5000 exceeds tolerance), refuting the claim that a
failure of either input probe makes validation accept unconditionally. -/
theorem tolerance_single_probe_failure_counterexample :
    try_fast_copy_concat ⟨0, true, 1, 0, 5000, 50000⟩ =
      { success := false, outputExists := false } := by decide

/-- C10 (amended): `_duration_within_tolerance` returns true whenever
`actual_ms ≤ 0` or `expected_ms ≤ 0`; consequently fast-copy validation
accepts unconditionally when the OUTPUT duration probe fails, or when the
expected sum of the two input durations is `≤ 0` (in particular when both
input probes fail) — but a single failed input probe merely weakens the
expected sum to the other input's duration. -/
theorem tolerance_accepts_unknown_probes :
    (∀ actual_ms expected_ms : Int, actual_ms ≤ 0 ∨ expected_ms ≤ 0 →
      duration_within_tolerance actual_ms expected_ms = true) ∧
    (∀ env : FastCopyEnv, env.returncode = 0 → env.outputCreated = true →
      0 < env.outputSize → (env.out_dur ≤ 0 ∨ env.dur1 + env.dur2 ≤ 0) →
      (try_fast_copy_concat env).success = true ∧
      (try_fast_copy_concat env).outputExists = true) := by
  have hbase : ∀ actual_ms expected_ms : Int, actual_ms ≤ 0 ∨ expected_ms ≤ 0 →
      duration_within_tolerance actual_ms expected_ms = true := by
    intro a e h
    unfold duration_within_tolerance
    rw [if_pos h]
  refine ⟨hbase, fun env h0 h1 h2 h3 => ?_⟩
  unfold try_fast_copy_concat
  rw [if_pos ⟨h0, h1, h2⟩]
  rw [if_neg (by simp [hbase env.out_dur (env.dur1 + env.dur2) h3])]
  exact ⟨rfl, rfl⟩

/-- C10 witness: both input probes failed (`dur1 = dur2 = 0`) while the output
probed at 99999 ms; the run is accepted and the file kept. -/
theorem tolerance_accepts_unknown_probes_witness :
    (try_fast_copy_concat ⟨0, true, 1, 0, 0, 99999⟩).success = true ∧
    (try_fast_copy_concat ⟨0, true, 1, 0, 0, 99999⟩).outputExists = true :=
  tolerance_accepts_unknown_probes.2 ⟨0, true, 1, 0, 0, 99999⟩ rfl rfl
    (by decide) (by decide)

/-! ### C1: cancellation mid-tier -/

/-- C1, counterexample: the with-audio tier is cancelled at its first poll
(the flag is permanently set), yet `reencode_concat` still launches the
video-only fallback tier — and since that run completes before its first poll
(no `TimeoutExpired`, zero exit, non-empty output), the job even reports
overall SUCCESS despite the cancellation, refuting "no further fallback tiers
are attempted after the cancellation". -/
theorem cancellation_fallback_counterexample :
    (run_ffmpeg_concat ⟨1, 1, "", false, 0⟩ (fun _ => true) 0).1 =
      { success := false, error := "Cancelled by user", outputExists := false } ∧
    (reencode_concat ⟨1, 1, "", false, 0⟩ ⟨0, 0, "", true, 5⟩ (fun _ => true) 0).1 =
      { success := true, error := "", outputExists := true,
        videoOnlyAttempted := true } := by decide

/-- C1 (amended): if the cancellation flag is observed while a tier's process
is running, that process is terminated, any partial output at the tier's path
is deleted, and the tier reports failure with the cancellation-specific
reason "Cancelled by user"; however `reencode_concat` treats this like any
other tier failure, so the video-only fallback tier is still attempted (it is
itself cancelled at its first poll if the flag remains set, but can succeed
if it completes within its first poll interval). -/
theorem cancellation_mid_tier (audioRun videoOnly : FFmpegRun)
    (cancel : Nat → Bool) (clock c : Nat)
    (h : firstCancelPoll cancel clock audioRun.timeoutPolls = some c) :
    (run_ffmpeg_concat audioRun cancel clock).1 =
      { success := false, error := "Cancelled by user", outputExists := false } ∧
    (reencode_concat audioRun videoOnly cancel clock).1.videoOnlyAttempted =
      true := by
  have h1 : run_ffmpeg_concat audioRun cancel clock =
      ({ success := false, error := "Cancelled by user", outputExists := false },
        c + 1) := by
    unfold run_ffmpeg_concat
    rw [h]
  refine ⟨by rw [h1], ?_⟩
  unfold reencode_concat
  rw [h1]
  simp

/-- C1 witness: the amended statement at a concrete cancelled run. -/
theorem cancellation_mid_tier_witness :
    (run_ffmpeg_concat ⟨1, 1, "", false, 0⟩ (fun _ => true) 0).1 =
      { success := false, error := "Cancelled by user", outputExists := false } ∧
    (reencode_concat ⟨1, 1, "", false, 0⟩ ⟨3, 1, "err", false, 0⟩
      (fun _ => true) 0).1.videoOnlyAttempted = true :=
  cancellation_mid_tier ⟨1, 1, "", false, 0⟩ ⟨3, 1, "err", false, 0⟩
    (fun _ => true) 0 0 (by decide)

/-! ### C3: runner success contract -/

/-- C3, counterexample: the UGC end-segment append accepts a run whose exit
code is zero and whose output file exists but is EMPTY (size 0), refuting the
claim that the success contract (zero exit AND output exists AND size > 0)
holds for all runner entry points including the UGC end-segment append. -/
theorem end_sting_empty_output_counterexample :
    concatenate_with_end_sting ⟨⟨0, 0, "", true, 0⟩, 1, false, 0⟩
      (fun _ => false) 0 = (true, true) ∧
    (⟨⟨0, 0, "", true, 0⟩, 1, false, 0⟩ : EndStingEnv).mainRun.outputSize = 0 := by
  decide

/-- C3 (amended): for the generic runner (`_run_ffmpeg_command`, and
`_run_ffmpeg_concat`, whose behaviour is identical), an uncancelled run
succeeds iff the process exited 0 AND the output exists AND its size is
positive; on failure the partial output is deleted and, when stderr is
non-empty, the surfaced error is a suffix of stderr of at most 500
characters.  The UGC end-segment append instead succeeds iff exit code 0 and
mere existence of the output (no size check), for either its audio attempt or
its video-only fallback. -/
theorem runner_success_contract :
    (∀ (run : FFmpegRun) (cancel : Nat → Bool) (clock : Nat),
      firstCancelPoll cancel clock run.timeoutPolls = none →
      (((run_ffmpeg_command run cancel clock).1.success = true ↔
          run.returncode = 0 ∧ run.outputCreated = true ∧ 0 < run.outputSize) ∧
        ((run_ffmpeg_command run cancel clock).1.success = false →
          (run_ffmpeg_command run cancel clock).1.outputExists = false ∧
          (run.stderr ≠ "" →
            (run_ffmpeg_command run cancel clock).1.error.data.length ≤ 500 ∧
            List.IsSuffix (run_ffmpeg_command run cancel clock).1.error.data
              run.stderr.data)) ∧
        run_ffmpeg_concat run cancel clock = run_ffmpeg_command run cancel clock)) ∧
    (∀ (env : EndStingEnv) (cancel : Nat → Bool) (clock : Nat),
      firstCancelPoll cancel clock env.mainRun.timeoutPolls = none →
      ((concatenate_with_end_sting env cancel clock).1 = true ↔
        (env.mainRun.returncode = 0 ∧ env.mainRun.outputCreated = true) ∨
        (¬(env.mainRun.returncode = 0 ∧ env.mainRun.outputCreated = true) ∧
          env.fallbackReturncode = 0 ∧ env.fallbackOutputCreated = true))) := by
  constructor
  · intro run cancel clock h
    have heq : run_ffmpeg_concat run cancel clock =
        run_ffmpeg_command run cancel clock := rfl
    have hr : run_ffmpeg_command run cancel clock =
        (if run.returncode = 0 ∧ run.outputCreated = true ∧ 0 < run.outputSize then
          ({ success := true, error := "", outputExists := true },
            clock + run.timeoutPolls)
         else
          ({ success := false,
             error := if run.stderr ≠ "" then lastChars 500 run.stderr
               else "Unknown error",
             outputExists := false }, clock + run.timeoutPolls)) := by
      unfold run_ffmpeg_command
      rw [h]
    refine ⟨?_, ?_, heq⟩
    · rw [hr]
      by_cases hc : run.returncode = 0 ∧ run.outputCreated = true ∧ 0 < run.outputSize
      · rw [if_pos hc]
        simpa using hc
      · rw [if_neg hc]
        simpa using hc
    · intro hf
      rw [hr] at hf ⊢
      by_cases hc : run.returncode = 0 ∧ run.outputCreated = true ∧ 0 < run.outputSize
      · rw [if_pos hc] at hf
        simp at hf
      · rw [if_neg hc]
        refine ⟨rfl, fun hs => ?_⟩
        rw [if_pos hs]
        exact ⟨lastChars_length_le 500 run.stderr, lastChars_suffix 500 run.stderr⟩
  · intro env cancel clock h
    have hr : concatenate_with_end_sting env cancel clock =
        (if env.mainRun.returncode = 0 ∧ env.mainRun.outputCreated = true then
          (true, true)
         else
          (decide (env.fallbackReturncode = 0 ∧ env.fallbackOutputCreated = true),
            env.fallbackOutputCreated)) := by
      unfold concatenate_with_end_sting
      rw [h]
    rw [hr]
    by_cases hc : env.mainRun.returncode = 0 ∧ env.mainRun.outputCreated = true
    · rw [if_pos hc]
      simp [hc]
    · rw [if_neg hc]
      simp [hc]

/-- C3 witness: the amended contract at a concrete uncancelled failing run
(exit code 1, stderr "boom"). -/
theorem runner_success_contract_witness :
    run_ffmpeg_concat ⟨0, 1, "boom", true, 3⟩ (fun _ => false) 0 =
      run_ffmpeg_command ⟨0, 1, "boom", true, 3⟩ (fun _ => false) 0 :=
  (runner_success_contract.1 ⟨0, 1, "boom", true, 3⟩ (fun _ => false) 0 rfl).2.2

/-! ### C5: overlay enablement forces fast copy off -/

/-- C5: `TextOverlayConfig.is_enabled()` is true exactly when the config's
text is non-empty after stripping whitespace; and every pair-processing job
given at least one enabled overlay returns `used_fast_copy = false`
regardless of the caller's fast-copy request and of the environment (the
fast-copy tier is never the reported path). -/
theorem overlay_enabled_disables_fast_copy :
    (∀ c : TextOverlayConfig, c.is_enabled = true ↔ pyStrip c.text.data ≠ []) ∧
    (∀ (m : VideoMatch) (try_fast_copy : Bool)
        (overlay_a overlay_b : Option TextOverlayConfig) (env : PairEnv),
      ((∃ c, overlay_a = some c ∧ c.is_enabled = true) ∨
        (∃ c, overlay_b = some c ∧ c.is_enabled = true)) →
      (process_video_pair m try_fast_copy overlay_a overlay_b env).used_fast_copy =
        false) := by
  have h1 : ∀ c : TextOverlayConfig, c.is_enabled = true ↔ pyStrip c.text.data ≠ [] := by
    intro c
    unfold TextOverlayConfig.is_enabled
    rw [Bool.and_eq_true, decide_eq_true_eq, decide_eq_true_eq]
    constructor
    · exact fun h => h.2
    · intro h
      refine ⟨fun he => h ?_, h⟩
      rw [he]
      rfl
  refine ⟨h1, fun m tfc oa ob env h => ?_⟩
  have hab : (overlayEnabled oa || overlayEnabled ob) = true := by
    rcases h with ⟨c, hoa, hc⟩ | ⟨c, hob, hc⟩
    · rw [hoa]
      simp [overlayEnabled, hc]
    · rw [hob]
      simp [overlayEnabled, hc]
  simp only [process_video_pair, hab]
  split_ifs
  all_goals first | rfl | simp_all

/-- C5 witness: a concrete job with an enabled overlay on side A and fast
copy requested still reports `used_fast_copy = false`. -/
theorem overlay_enabled_disables_fast_copy_witness :
    (process_video_pair ⟨"x", some "a.mp4", some "b.mp4"⟩ true
      (some { text := "hello" }) none
      ⟨true, "", true, "", ⟨0, true, 1, 0, 0, 0⟩, ⟨0, 0, "", true, 1⟩,
        ⟨0, 0, "", true, 1⟩, ⟨0, 0, "", true, 1⟩, ⟨0, 0, "", true, 1⟩,
        fun _ => false⟩).used_fast_copy = false :=
  overlay_enabled_disables_fast_copy.2 ⟨"x", some "a.mp4", some "b.mp4"⟩ true
    (some { text := "hello" }) none
    ⟨true, "", true, "", ⟨0, true, 1, 0, 0, 0⟩, ⟨0, 0, "", true, 1⟩,
      ⟨0, 0, "", true, 1⟩, ⟨0, 0, "", true, 1⟩, ⟨0, 0, "", true, 1⟩,
      fun _ => false⟩
    (Or.inl ⟨{ text := "hello" }, rfl, by decide⟩)

/-! ### C6: greedy word wrap -/

/-- C6, counterexample: with a character-count measure and a box width of 1,
text "ab c" wraps to lines `["ab", "c"]`: every single character fits the
box, yet the emitted line "ab" has measured width 2 > 1 — the overlong FIRST
word is never hard-split (the split only runs for a word that overflows a
non-empty current line), refuting "no emitted line's measured width exceeds
the box width". -/
theorem wrap_overlong_first_word_counterexample :
    wrap_text List.length (['a', 'b', ' ', 'c']) 1 = [['a', 'b'], ['c']] ∧
    (∀ ch ∈ (['a', 'b', ' ', 'c'] : List Char), List.length [ch] ≤ 1) ∧
    ¬ List.length ['a', 'b'] ≤ 1 := by decide

theorem dropWhile_eq_self_of_no {p : Char → Bool} {l : List Char}
    (h : ∀ c ∈ l, p c = false) : l.dropWhile p = l := by
  cases l with
  | nil => rfl
  | cons a t => simp [List.dropWhile_cons, h a (List.mem_cons_self a t)]

theorem pyStrip_no_ws {w : List Char} (h : ∀ c ∈ w, c.isWhitespace = false) :
    pyStrip w = w := by
  unfold pyStrip
  rw [dropWhile_eq_self_of_no h,
    dropWhile_eq_self_of_no (fun c hc => h c (List.mem_reverse.mp hc)),
    List.reverse_reverse]

theorem pyStrip_cons_space (w : List Char) : pyStrip (' ' :: w) = pyStrip w := by
  unfold pyStrip
  rw [List.dropWhile_cons, if_pos (by decide : (' '.isWhitespace = true))]

theorem pySplitAux_no_ws :
    ∀ (l acc : List Char), (∀ c ∈ acc, c.isWhitespace = false) →
      ∀ w ∈ pySplitAux l acc, ∀ c ∈ w, c.isWhitespace = false := by
  intro l
  induction l with
  | nil =>
    intro acc hacc w hw
    simp only [pySplitAux] at hw
    split at hw
    · simp at hw
    · rw [List.mem_singleton.mp hw]
      intro c hc
      exact hacc c (List.mem_reverse.mp hc)
  | cons a t ih =>
    intro acc hacc w hw
    simp only [pySplitAux] at hw
    by_cases ha : a.isWhitespace
    · rw [if_pos ha] at hw
      split at hw
      · exact ih [] (by simp) w hw
      · rcases List.mem_cons.mp hw with rfl | hw'
        · intro c hc
          exact hacc c (List.mem_reverse.mp hc)
        · exact ih [] (by simp) w hw'
    · rw [if_neg ha] at hw
      refine ih (a :: acc) ?_ w hw
      intro c hc
      rcases List.mem_cons.mp hc with rfl | hc'
      · simpa using ha
      · exact hacc c hc'

theorem wrapStep_preserves (measure : List Char → Nat) (mw : Nat)
    (st : List (List Char) × List Char) (word : List Char)
    (hword : measure word ≤ mw) (hws : ∀ c ∈ word, c.isWhitespace = false)
    (hlines : ∀ l ∈ st.1, measure l ≤ mw)
    (hcur : st.2 = [] ∨ measure st.2 ≤ mw) :
    (∀ l ∈ (wrapStep measure mw st word).1, measure l ≤ mw) ∧
    ((wrapStep measure mw st word).2 = [] ∨
      measure (wrapStep measure mw st word).2 ≤ mw) := by
  simp only [wrapStep]
  by_cases hcond : measure (pyStrip (st.2 ++ ' ' :: word)) ≤ mw ∨ st.2 = []
  · rw [if_pos hcond]
    refine ⟨hlines, Or.inr ?_⟩
    rcases hcond with hle | hnil
    · exact hle
    · rw [hnil, List.nil_append, pyStrip_cons_space, pyStrip_no_ws hws]
      exact hword
  · rw [if_neg hcond]
    push_neg at hcond
    rw [if_neg (by omega : ¬ mw < measure word)]
    refine ⟨?_, Or.inr hword⟩
    intro l hl
    rcases List.mem_append.mp hl with hl' | hl'
    · exact hlines l hl'
    · rw [List.mem_singleton.mp hl']
      rcases hcur with hnil | hle
      · exact absurd hnil hcond.2
      · exact hle

theorem wrapFold_preserves (measure : List Char → Nat) (mw : Nat)
    (ws : List (List Char))
    (hws : ∀ w ∈ ws, measure w ≤ mw ∧ ∀ c ∈ w, c.isWhitespace = false) :
    ∀ st : List (List Char) × List Char,
      (∀ l ∈ st.1, measure l ≤ mw) → (st.2 = [] ∨ measure st.2 ≤ mw) →
      (∀ l ∈ (ws.foldl (wrapStep measure mw) st).1, measure l ≤ mw) ∧
      ((ws.foldl (wrapStep measure mw) st).2 = [] ∨
        measure (ws.foldl (wrapStep measure mw) st).2 ≤ mw) := by
  induction ws with
  | nil =>
    intro st h1 h2
    exact ⟨h1, h2⟩
  | cons w t ih =>
    intro st h1 h2
    rw [List.foldl_cons]
    have hw := hws w (List.mem_cons_self w t)
    have hstep := wrapStep_preserves measure mw st w hw.1 hw.2 h1 h2
    exact ih (fun x hx => hws x (List.mem_cons_of_mem w hx)) _ hstep.1 hstep.2

/-- C6 (amended): the wrap is greedy, and a word wider than the box is
hard-split by character only when it starts a new line after a completed one;
a word placed while the current line is empty (in particular the text's first
word) is kept whole, so such a line can exceed the box width.  Consequently:
when every whitespace-separated word of the text fits the box width, no
emitted line's measured width exceeds the box width; a box width fitting
exactly 3 two-character words per line wraps a 9-word input into exactly 3
lines; and an overlong word that starts a new line is hard-split by
character. -/
theorem wrap_text_greedy_sound :
    (∀ (measure : List Char → Nat) (text : List Char) (max_width : Nat),
      pySplit text ≠ [] →
      (∀ w ∈ pySplit text, measure w ≤ max_width) →
      ∀ line ∈ wrap_text measure text max_width, measure line ≤ max_width) ∧
    (wrap_text List.length "aa bb cc dd ee ff gg hh ii".data 8).length = 3 ∧
    wrap_text List.length (['a', ' ', 'b', 'c', 'd']) 1 =
      [['a'], ['b'], ['c'], ['d']] := by
  refine ⟨?_, by decide, by decide⟩
  intro measure text mw hne hfit line hline
  have hnows := pySplitAux_no_ws text [] (by simp)
  simp only [wrap_text] at hline
  rw [if_neg hne] at hline
  have hfold := wrapFold_preserves measure mw (pySplit text)
    (fun w hw => ⟨hfit w hw, hnows w hw⟩) ([], []) (by simp) (Or.inl rfl)
  by_cases h2 : ((pySplit text).foldl (wrapStep measure mw) ([], [])).2 = []
  · rw [if_pos h2] at hline
    exact hfold.1 line hline
  · rw [if_neg h2] at hline
    rcases List.mem_append.mp hline with hl | hl
    · exact hfold.1 line hl
    · rw [List.mem_singleton.mp hl]
      rcases hfold.2 with hnil | hle
      · exact absurd hnil h2
      · exact hle

/-- C6 witness: the amended soundness at a concrete input whose single word
fits the box. -/
theorem wrap_text_greedy_sound_witness :
    List.length ['a', 'b'] ≤ 2 :=
  wrap_text_greedy_sound.1 List.length ['a', 'b'] 2 (by decide) (by decide)
    ['a', 'b'] (by decide)

/-! ### C7: natural-order sorting of matches -/

/-- C7: for every pair of scanned folders the matcher's output is sorted by
the natural-order key (basenames split into alternating digit / non-digit
runs; digit runs numeric, non-digit runs lowercased); in particular the
basenames clip2, clip10, clip1 come out ordered clip1, clip2, clip10. -/
theorem find_matches_natural_sorted :
    (∀ videos_a videos_b : List (String × String),
      List.Sorted natKeyLE (find_matches videos_a videos_b)) ∧
    (find_matches [("clip2", "a2"), ("clip10", "a10"), ("clip1", "a1")] []).map
      VideoMatch.basename = ["clip1", "clip2", "clip10"] ∧
    natural_sort_key "clip1" ≤ natural_sort_key "clip2" ∧
    natural_sort_key "clip2" ≤ natural_sort_key "clip10" := by
  refine ⟨?_, by decide, by decide, by decide⟩
  intro va vb
  haveI : IsTotal VideoMatch natKeyLE := ⟨fun a b => le_total _ _⟩
  haveI : IsTrans VideoMatch natKeyLE := ⟨fun a b c hab hbc => le_trans hab hbc⟩
  unfold find_matches
  exact List.sorted_insertionSort natKeyLE _

/-! ### C9: VideoMatch status trichotomy -/

theorem lookup_ne_none_of_mem_keys (l : List (String × String)) (b : String)
    (h : b ∈ l.map Prod.fst) : l.lookup b ≠ none := by
  induction l with
  | nil => simp at h
  | cons p t ih =>
    obtain ⟨k, v⟩ := p
    by_cases hbk : b = k
    · subst hbk
      simp [List.lookup]
    · have h' : b ∈ t.map Prod.fst := by
        rcases List.mem_cons.mp h with heq | h'
        · exact absurd heq hbk
        · exact h'
      have hbeq : (b == k) = false := beq_eq_false_iff_ne.mpr hbk
      simpa [List.lookup, hbeq] using ih h'

/-- C9: every `VideoMatch` the matcher produces has at least one file
present, and exactly one of the three statuses holds — `"Matched"` iff both
present, `"Only in A"` iff only `file_a`, `"Only in B"` iff only `file_b`.
(The embedding's values are immutable, as the claim requires; the source
never reassigns a `VideoMatch` field after construction.) -/
theorem video_match_status_trichotomy :
    ∀ (videos_a videos_b : List (String × String)) (m : VideoMatch),
      m ∈ find_matches videos_a videos_b →
      (m.file_a ≠ none ∨ m.file_b ≠ none) ∧
      (m.status = "Matched" ↔ m.file_a ≠ none ∧ m.file_b ≠ none) ∧
      (m.status = "Only in A" ↔ m.file_a ≠ none ∧ m.file_b = none) ∧
      (m.status = "Only in B" ↔ m.file_a = none ∧ m.file_b ≠ none) := by
  intro va vb m hm
  simp only [find_matches] at hm
  rw [List.mem_insertionSort] at hm
  obtain ⟨b, hb, rfl⟩ := List.mem_map.mp hm
  have hpres : va.lookup b ≠ none ∨ vb.lookup b ≠ none := by
    rcases List.mem_append.mp (List.mem_dedup.mp hb) with h' | h'
    · exact Or.inl (lookup_ne_none_of_mem_keys va b h')
    · exact Or.inr (lookup_ne_none_of_mem_keys vb b h')
  refine ⟨hpres, ?_⟩
  rcases hA : va.lookup b with _ | pa <;> rcases hB : vb.lookup b with _ | pb <;>
    simp_all [VideoMatch.status, VideoMatch.is_matched]

/-- C9 witness: the trichotomy at a concrete produced match (present only in
folder A). -/
theorem video_match_status_trichotomy_witness :
    (((⟨"x", some "p.mp4", none⟩ : VideoMatch)).file_a ≠ none ∨
      ((⟨"x", some "p.mp4", none⟩ : VideoMatch)).file_b ≠ none) ∧
    (((⟨"x", some "p.mp4", none⟩ : VideoMatch)).status = "Matched" ↔
      ((⟨"x", some "p.mp4", none⟩ : VideoMatch)).file_a ≠ none ∧
      ((⟨"x", some "p.mp4", none⟩ : VideoMatch)).file_b ≠ none) ∧
    (((⟨"x", some "p.mp4", none⟩ : VideoMatch)).status = "Only in A" ↔
      ((⟨"x", some "p.mp4", none⟩ : VideoMatch)).file_a ≠ none ∧
      ((⟨"x", some "p.mp4", none⟩ : VideoMatch)).file_b = none) ∧
    (((⟨"x", some "p.mp4", none⟩ : VideoMatch)).status = "Only in B" ↔
      ((⟨"x", some "p.mp4", none⟩ : VideoMatch)).file_a = none ∧
      ((⟨"x", some "p.mp4", none⟩ : VideoMatch)).file_b ≠ none) :=
  video_match_status_trichotomy [("x", "p.mp4")] [] ⟨"x", some "p.mp4", none⟩
    (by decide)

/-! ### C4: UGC trim point and caption filter -/

set_option maxRecDepth 100000 in
/-- C4, counterexample: at a source duration of 2877 ms the binary64
computation `int(max(0, 2877/1000 - 2.8) * 1000)` yields 76, one millisecond
short of the claimed `max(0, 2877 - 2800) = 77` (the exact float difference
is 0.07699999999999995737…, whose product with 1000 rounds below 77), so the
trim point is NOT `max(0, D - 2800)` for every duration — and a word with
`start_ms = 76` is excluded from the captions although `76 < 77`. -/
theorem ugc_trim_float_counterexample :
    trimmed_duration_ms 2877 = 76 ∧
    max 0 ((2877 : Int) - 2800) = 77 ∧
    filter_words_for_captions [⟨"w", 76, 100⟩] (trimmed_duration_ms 2877) =
      [] := by
  decide

set_option maxRecDepth 100000 in
/-- C4 (amended): the pre-append trim point is
`int(max(0, D/1000 - 2.8) * 1000)` computed in binary64 arithmetic; it is
never negative, and the caption track keeps exactly the transcript words
whose `start_ms` is strictly below it (every word at or past the trim point
is excluded).  A 10.0 s source yields exactly 7200 ms (7.2 s), but float
rounding can make the trim point fall 1 ms short of `max(0, D - 2800)`, as
at `D = 2877` where it is 76 rather than 77. -/
theorem ugc_trim_and_caption_filter :
    (∀ D : Int, 0 ≤ trimmed_duration_ms D) ∧
    (∀ (words : List TranscriptWord) (D : Int) (w : TranscriptWord),
      w ∈ filter_words_for_captions words (trimmed_duration_ms D) ↔
        w ∈ words ∧ w.start_ms < trimmed_duration_ms D) ∧
    trimmed_duration_ms 10000 = 7200 ∧
    trimmed_duration_ms 2877 = 76 ∧
    filter_words_for_captions [⟨"keep", 7199, 7300⟩, ⟨"drop", 7200, 7300⟩]
      (trimmed_duration_ms 10000) = [⟨"keep", 7199, 7300⟩] := by
  have hround : ∀ (m e : Int), 0 ≤ m → 0 ≤ (roundDyadic m e).m := by
    intro m e hm
    simp only [roundDyadic]
    split_ifs with h0 hb hneg <;> (try dsimp only)
    · omega
    · exact hm
    · omega
    · omega
  have htrunc : ∀ x : F64, 0 ≤ x.m → 0 ≤ x.toIntTrunc := by
    intro x hx
    simp only [F64.toIntTrunc, F64.floorDivNat]
    split_ifs with he
    · exact Int.ediv_nonneg (mul_nonneg hx (by positivity)) (by norm_num)
    · exact Int.ediv_nonneg hx (by positivity)
  refine ⟨fun D => ?_, fun words D w => ?_, by decide, by decide, by decide⟩
  · have hm : 0 ≤ (trimmed_duration_sec D).m := by
      simp only [trimmed_duration_sec]
      split_ifs with h <;> (try dsimp only)
      · omega
      · omega
    simp only [trimmed_duration_ms, F64.mulInt]
    exact htrunc _ (hround _ _ (mul_nonneg hm (by norm_num)))
  · simp [filter_words_for_captions, List.mem_filter]

/-! ### C8: caption timestamp round trip -/

set_option maxRecDepth 100000 in
/-- C8, counterexample: at the timestamp 74587768509532617 ms the binary64
conversion renders fields that parse back to 74587768509532600 ms — an error
of 17 ms, exceeding the claimed 10 ms bound (at this magnitude the single
rounding in `ms / 1000` alone can lose almost 8 ms, on top of the 10 ms
centisecond truncation), so the round trip is NOT within 10 ms for every
non-negative timestamp. -/
theorem ass_time_round_trip_counterexample :
    ass_time_to_ms (ms_to_ass_time_parts 74587768509532617) =
      74587768509532600 ∧
    (10 : Int) <
      |(74587768509532617 : Int) -
        ass_time_to_ms (ms_to_ass_time_parts 74587768509532617)| := by
  decide

set_option maxRecDepth 100000 in
/-- C8 (amended): parsing back the rendered `H:MM:SS.cc` fields always
yields a multiple of 10 ms (centisecond resolution); the spec's examples
round-trip exactly — 1500 ms and 2750 ms render as `0:00:01.50` and
`0:00:02.75` and parse back unchanged — but binary64 rounding can lower a
field: 290 ms renders as `0:00:00.28` and parses back to 280 ms (an error of
exactly 10 ms), and for sufficiently large timestamps the round-trip error
exceeds 10 ms. -/
theorem ass_time_round_trip :
    (∀ t : AssTime, ass_time_to_ms t % 10 = 0) ∧
    ass_time_to_ms (ms_to_ass_time_parts 1500) = 1500 ∧
    ass_time_to_ms (ms_to_ass_time_parts 2750) = 2750 ∧
    ms_to_ass_time 1500 = "0:00:01.50" ∧
    ms_to_ass_time 2750 = "0:00:02.75" ∧
    ms_to_ass_time 290 = "0:00:00.28" ∧
    ass_time_to_ms (ms_to_ass_time_parts 290) = 280 := by
  refine ⟨fun t => ?_, by decide, by decide, by decide, by decide, by decide,
    by decide⟩
  simp only [ass_time_to_ms]
  omega

end VideoPipeline
